import Mathlib

/-!
Verification development for the terminal snake game (C sources:
`src/snake.c`, `src/screen.c`, `src/main.c`).

The snake's chain of heap nodes is embedded as a Lean list of `Node`s
ordered head-first.  The operations keep this list in next-chain order
(`body[i+1].next = body[i]`, the head's `next` is `NULL`): `advance`, `grow`
and `destroySnake` maintain and traverse the chain through the `next`
pointers and the head/tail fields, and the list operations mirror exactly
those writes.  The `prev` pointers are manipulated separately by the C code
- set at node creation (snake.c line 72) and nulled on the new tail after
each pop (line 78) - and do NOT always mirror the list order: `grow`
re-attaches the detached tail without restoring its neighbour's `prev`.
They are therefore modelled explicitly, by node id, in `SnakePtr` below.
Each node carries a numeric `id` standing for its heap address; the snake's
`fresh` counter models the allocator: every live node's id is below `fresh`
and `newNode` hands out `fresh` itself, so distinct allocations get
distinct ids.

`snake.h` is not among the sources, but every relevant declaration in it is
fixed by its uses in `snake.c`: `Point` has integer fields `x`, `y`; `Node`
has `pos`, `prev`, `next`; the `Direction` enum order NORTH, EAST, SOUTH,
WEST (with `WEST + 1 = 4`) is forced by `rand() % (WEST + 1)` and
`(direction + 2) % (WEST + 1)` pairing NORTH with SOUTH and EAST with WEST.
-/

/-- 2D integer coordinate, from `Point` (`snake.h`). -/
structure Point where
  x : Int
  y : Int
deriving DecidableEq, Repr

/-- The four cardinal directions of the `Direction` enum. -/
inductive Direction where
  | NORTH
  | EAST
  | SOUTH
  | WEST
deriving DecidableEq, Repr

/-- Numeric value of a `Direction` in the C enum (NORTH = 0 .. WEST = 3). -/
def Direction.idx : Direction → Nat
  | .NORTH => 0
  | .EAST => 1
  | .SOUTH => 2
  | .WEST => 3

/-- One heap node of the chain: its position plus an allocation id standing
for the node's address (the `prev`/`next` pointers are encoded by the order
of the enclosing list). -/
structure Node where
  id : Nat
  pos : Point
deriving DecidableEq, Repr

/-- Junk node used for the C-undefined case of dereferencing a null head;
never reachable from `newSnake` since the chain always has a node. -/
def dummyNode : Node := ⟨0, ⟨0, 0⟩⟩

/-- The `Snake` struct: the chain's nodes in head-to-tail order (the
reverse of the `next`-pointer chain), current direction, the `length`
field, and the allocator counter.  The actual `prev` pointers live in
`SnakePtr`. -/
structure Snake where
  body : List Node
  direction : Direction
  length : Nat
  fresh : Nat
deriving Repr

/-- `newSnake` (snake.c line 21): a single node at `center`; the random
initial direction is a parameter. -/
def newSnake (center : Point) (d : Direction) : Snake :=
  { body := [⟨0, center⟩], direction := d, length := 1, fresh := 1 }

/-- The `switch (self->direction)` of `advance` (snake.c lines 56-69):
one cell NORTH: y-1, EAST: x+1, SOUTH: y+1, WEST: x-1. -/
def stepPoint (d : Direction) (p : Point) : Point :=
  match d with
  | .NORTH => ⟨p.x, p.y - 1⟩
  | .EAST => ⟨p.x + 1, p.y⟩
  | .SOUTH => ⟨p.x, p.y + 1⟩
  | .WEST => ⟨p.x - 1, p.y⟩

/-- `advance` (snake.c lines 51-81): push a freshly allocated head at the
stepped position, pop the tail, return the detached tail node.  The empty
chain case is C undefined behaviour (null `head` dereference); it returns
junk and is never reachable. -/
def advance (s : Snake) : Snake × Node :=
  match s.body with
  | [] => (s, dummyNode)
  | h :: t =>
    let newHead : Node := ⟨s.fresh, stepPoint s.direction h.pos⟩
    ({ s with body := (newHead :: h :: t).dropLast, fresh := s.fresh + 1 },
     (h :: t).getLast (by simp))

/-- `changeDirection` (snake.c lines 83-91): rejected when `direction`
equals the current one, or is its 180-degree opposite (enum arithmetic
`(direction + 2) % (WEST + 1)`) while `length > 1`. -/
def changeDirection (s : Snake) (d : Direction) : Snake :=
  if d = s.direction ∨ (1 < s.length ∧ d.idx = (s.direction.idx + 2) % 4) then s
  else { s with direction := d }

/-- `grow` (snake.c lines 93-98): re-attach the detached old tail as the
new tail (`oldTail->next = self->tail; self->tail = oldTail`) and bump
`length`.  This models only what the C writes: the `next` link and the tail
field, i.e. the node list in next-chain order.  `grow` writes NO `prev`
pointer - in particular it does not restore `oldTail->next->prev`, which
`advance` nulled at line 78; that omission is captured faithfully by
`growPtr` on the explicit `prev` map. -/
def grow (s : Snake) (oldTail : Node) : Snake :=
  { s with body := s.body ++ [oldTail], length := s.length + 1 }

/-- The nested loops of `selfCollision` (snake.c lines 42-47) over the
chain's nodes in head-to-tail order (the `prev`-pointer walk, on a chain
whose `prev` links are intact): for each node, scan every node strictly
closer to the tail — starting at its immediate predecessor — for coordinate
equality, and report the outer node's position on the first hit. -/
def findCollision : List Node → Option Point
  | [] => none
  | n :: rest =>
    if rest.any (fun m => m.pos.x = n.pos.x ∧ m.pos.y = n.pos.y) then some n.pos
    else findCollision rest

/-- `selfCollision` (snake.c lines 41-49), with the found collision point
returned as the optional value instead of the out-parameter. -/
def selfCollision (s : Snake) : Option Point :=
  findCollision s.body

/-- The 180-degree opposite direction, as the spec words it ("exact
opposite": NORTH-SOUTH, EAST-WEST). -/
def oppositeDir : Direction → Direction
  | .NORTH => .SOUTH
  | .EAST => .WEST
  | .SOUTH => .NORTH
  | .WEST => .EAST

/-- Modelled from the spec: the scan the spec claims for `selfCollision`,
which "skips the immediately preceding segment" — the inner scan starts
strictly past the outer node's `prev` neighbour.  Kept for comparison with
`findCollision`, which starts the inner scan at the `prev` neighbour. -/
def findCollisionSkipNeck : List Node → Option Point
  | [] => none
  | n :: rest =>
    if (rest.drop 1).any (fun m => m.pos.x = n.pos.x ∧ m.pos.y = n.pos.y) then some n.pos
    else findCollisionSkipNeck rest

/-- Modelled from the spec: `selfCollision` as the spec describes it. -/
def selfCollisionSkipNeck (s : Snake) : Option Point :=
  findCollisionSkipNeck s.body

/-- Specification-level description of what the code's scan returns: the
first position from the head that recurs among the positions closer to the
tail (its immediate neighbour included). -/
def firstRepeat : List Point → Option Point
  | [] => none
  | p :: rest => if p ∈ rest then some p else firstRepeat rest

/-- The operations the game loop performs on a snake: a direction change, an
advance whose detached tail is released (no growth), or an advance whose
detached tail is immediately re-attached by `grow` (orb captured).  `grow` is
only ever called with the node returned by the advance of the same frame
(main.c lines 76-80), which `eat` captures. -/
inductive SnakeOp where
  | turn (d : Direction)
  | move
  | eat

/-- Apply one game-loop operation to the snake. -/
def applyOp (s : Snake) : SnakeOp → Snake
  | .turn d => changeDirection s d
  | .move => (advance s).1
  | .eat => grow (advance s).1 (advance s).2

/-- Run a sequence of game-loop operations from a starting snake. -/
def runOps (s : Snake) (ops : List SnakeOp) : Snake :=
  ops.foldl applyOp s

/-- Chain well-formedness: the chain is nonempty (the C code always
dereferences `head`), the `length` field counts its nodes, the nodes are
pairwise distinct allocations, and all live ids are below the allocator
counter. -/
def SnakeInv (s : Snake) : Prop :=
  s.body ≠ [] ∧ s.body.length = s.length ∧ (s.body.map Node.id).Nodup ∧
    ∀ n ∈ s.body, n.id < s.fresh

/-- Pointer-level chain state.  snake.c manipulates the `prev` pointers
separately from the `next` links, so alongside the node list (which the
operations keep in next-chain order) each allocated node's actual `prev`
pointer is tracked by id: `prev i = some j` means node `i`'s `prev` field
points at node `j`; `none` is `NULL`. -/
structure SnakePtr where
  snake : Snake
  prev : Nat → Option Nat

/-- `newSnake` at pointer level: the single node is created with
`prev = NULL` (`newNode(center, NULL)`, snake.c line 23). -/
def newSnakePtr (center : Point) (d : Direction) : SnakePtr :=
  { snake := newSnake center d, prev := fun _ => none }

/-- `advance` at pointer level (snake.c lines 51-81): the fresh head is
created with `prev = self->head` (line 72), and after the pop the new
tail's `prev` is nulled (line 78, checked first since the pop runs after
the push).  The detached old tail keeps its own `prev`, which is already
`NULL` from when it became the tail. -/
def advancePtr (S : SnakePtr) : SnakePtr × Node :=
  let oldHeadId := (S.snake.body.headD dummyNode).id
  let adv := advance S.snake
  let newTailId := (adv.1.body.getLastD dummyNode).id
  ({ snake := adv.1,
     prev := fun i =>
       if i = newTailId then none
       else if i = S.snake.fresh then some oldHeadId
       else S.prev i },
   adv.2)

/-- `grow` at pointer level (snake.c lines 93-98): it re-attaches the old
tail through `next` and the tail field only - no `prev` pointer is written,
so the `prev` of the node after the re-attached tail stays as `advance`
left it: `NULL`. -/
def growPtr (S : SnakePtr) (oldTail : Node) : SnakePtr :=
  { S with snake := grow S.snake oldTail }

/-- `changeDirection` at pointer level: no pointer is touched. -/
def changeDirectionPtr (S : SnakePtr) (d : Direction) : SnakePtr :=
  { S with snake := changeDirection S.snake d }

/-- The game-loop operations at pointer level. -/
def applyOpPtr (S : SnakePtr) : SnakeOp → SnakePtr
  | .turn d => changeDirectionPtr S d
  | .move => (advancePtr S).1
  | .eat => growPtr (advancePtr S).1 (advancePtr S).2

/-- Run a sequence of game-loop operations at pointer level. -/
def runOpsPtr (S : SnakePtr) (ops : List SnakeOp) : SnakePtr :=
  ops.foldl applyOpPtr S

/-- The walk `for (it = head; it != NULL; it = it->prev)` over the actual
`prev` pointers, collecting the ids of the nodes it visits; fuel-bounded. -/
def prevWalk (pr : Nat → Option Nat) : Nat → Nat → List Nat
  | 0, _ => []
  | fuel + 1, i =>
    i :: (match pr i with
          | none => []
          | some j => prevWalk pr fuel j)

/-- The nodes visited when following `prev` from the head, as
`selfCollision`'s outer loop (snake.c line 42) and the spec's head-to-tail
chain do. -/
def prevChainIds (S : SnakePtr) : List Nat :=
  match S.snake.body with
  | [] => []
  | h :: _ => prevWalk S.prev (S.snake.body.length + 1) h.id

/-- The `next` pointer of node `n` in the chain: `body[i+1].next = body[i]`
(toward the head), and the head itself has `next = NULL`. -/
def nextToward (body : List Node) (n : Node) : Option Node :=
  (body.zip body.tail).findSome? (fun q => if q.2.id = n.id then some q.1 else none)

/-- The node-freeing loop of `destroySnake` (snake.c lines 31-36): walk from
a starting node following `next` until `NULL`, collecting every node it
frees.  Fuel bounds the walk; `body.length + 1` steps are more than any
`next` chain can have. -/
def destroyLoop (body : List Node) : Nat → Option Node → List Node
  | 0, _ => []
  | _ + 1, none => []
  | fuel + 1, some n => n :: destroyLoop body fuel (nextToward body n)

/-- The nodes `destroySnake` (snake.c lines 29-39) frees: the walk starts at
`self->head` and follows `next`. -/
def destroyedNodes (s : Snake) : List Node :=
  destroyLoop s.body (s.body.length + 1) s.body.head?

/-- Keyboard commands the game loop distinguishes (main.c lines 50-73);
`nop` is any other (or no) key. -/
inductive Cmd where
  | north
  | east
  | south
  | west
  | quit
  | nop
deriving DecidableEq, Repr

/-- The `Difficulty` enum (screen.h line 11). -/
inductive Difficulty where
  | INCREMENTAL
  | EASY
  | MEDIUM
  | HARD
deriving DecidableEq, Repr

/-- Position of the snake's head (`self->head->pos`). -/
def headPos (s : Snake) : Point :=
  (s.body.headD dummyNode).pos

/-- One round's mutable engine state: the screen's field dimensions and
occupancy grid (`screen->grid`, a `(mapHeight+1) x (mapWidth+1)` array
modelled as a function), the orb, the snake, and the loop-local variables of
`main` (`progress`, `quit`, `wallCollision`).  `lastDelay` records the
nanosecond delay computed for the frame's `thrd_sleep`. -/
structure GameState where
  mapWidth : Nat
  mapHeight : Nat
  grid : Point → Bool
  orb : Point
  snake : Snake
  progress : ℚ
  difficulty : Difficulty
  quit : Bool
  wallCollision : Bool
  lastDelay : ℤ

/-- Write one cell of the occupancy grid. -/
def setGrid (g : Point → Bool) (p : Point) (b : Bool) : Point → Bool :=
  fun q => if q = p then b else g q

/-- The rejection-sampling loop of `spawnOrb` (screen.c lines 102-105):
take the first sampled point whose grid cell is not occupied.  `none` means
no sample of the given stream was accepted (the C loop is still spinning). -/
def spawnOrb (cands : List Point) (grid : Point → Bool) : Option Point :=
  cands.find? (fun p => !grid p)

/-- The candidate stream of `spawnOrb`: successive `rand()` pairs reduced by
`% (mapWidth + 1)` and `% (mapHeight + 1)`. -/
def orbCandidates (rands : List (Nat × Nat)) (w h : Nat) : List Point :=
  rands.map (fun r => ⟨((r.1 % (w + 1) : Nat) : Int), ((r.2 % (h + 1) : Nat) : Int)⟩)

/-- The playable field: valid coordinates are `0..=mapWidth` by
`0..=mapHeight` (inclusive bounds). -/
def inField (w h : Nat) (p : Point) : Prop :=
  0 ≤ p.x ∧ p.x ≤ (w : Int) ∧ 0 ≤ p.y ∧ p.y ≤ (h : Int)

instance (w h : Nat) (p : Point) : Decidable (inField w h p) := by
  unfold inField; infer_instance

/-- `insideBoundaries` (screen.c lines 89-92): inclusive bound check of the
head's position against the field extents. -/
def insideBoundaries (w h : Nat) (s : Snake) : Bool :=
  decide ((headPos s).x ≤ (w : Int)) && decide (0 ≤ (headPos s).x) &&
    decide ((headPos s).y ≤ (h : Int)) && decide (0 ≤ (headPos s).y)

/-- `progress` as `main` computes it on a growth frame (main.c line 83):
`(float)snake->length / (screen->mapWidth * screen->mapHeight)`, in exact
rational arithmetic. -/
def progressOf (len w h : Nat) : ℚ :=
  (len : ℚ) / ((w : ℚ) * (h : ℚ))

/-- Modelled from the spec: the progress formula the spec states,
`length / ((width+1)*(height+1))` — length over the field's total cell
count.  Kept for comparison with `progressOf`. -/
def progressClaimed (len w h : Nat) : ℚ :=
  (len : ℚ) / (((w : ℚ) + 1) * ((h : ℚ) + 1))

/-- The INCREMENTAL frame delay (main.c lines 113-114):
`delayMax.tv_nsec - (unsigned)(delayDiff.tv_nsec * progress)` with
`delayMax = 83333333ns`, `delayDiff = 83333333 - 33333333 = 50000000ns`.
The C cast truncates toward zero, which is the floor for the nonnegative
products that occur. -/
def delayIncremental (p : ℚ) : ℤ :=
  83333333 - Int.floor ((50000000 : ℚ) * p)

/-- The frame delay per difficulty (main.c lines 111-126), in nanoseconds. -/
def delayFor : Difficulty → ℚ → ℤ
  | .INCREMENTAL, p => delayIncremental p
  | .EASY, _ => 83333333
  | .MEDIUM, _ => 50000000
  | .HARD, _ => 33333333

/-- The part of a frame after input handling, up to and including the draw
(main.c lines 75-93), given the quit flag and snake as they stand after the
input switch: `advance`, growth handling (re-attach the tail, mark its cell,
spawn a new orb, recompute `progress`), the wall-collision check, and
`draw`'s grid updates (screen.c lines 133-146: clear the old tail's cell
unless growing, mark the head's cell) - `draw` runs only when the head is
inside the boundaries.  `rands` feeds `spawnOrb`; the result is `none` only
when `spawnOrb`'s rejection loop accepts none of its samples. -/
def frameAfterInput (quit1 : Bool) (snake0 : Snake) (rands : List (Nat × Nat))
    (s : GameState) : Option GameState :=
  let adv := advance snake0
  let snake1 := adv.1
  let oldTail := adv.2
  if headPos snake1 = s.orb then
    let snake2 := grow snake1 oldTail
    let grid1 := setGrid s.grid oldTail.pos true
    match spawnOrb (orbCandidates rands s.mapWidth s.mapHeight) grid1 with
    | none => none
    | some orb1 =>
      let progress1 := progressOf snake2.length s.mapWidth s.mapHeight
      let wc := !insideBoundaries s.mapWidth s.mapHeight snake2
      let grid2 := if wc then grid1 else setGrid grid1 (headPos snake2) true
      some { s with snake := snake2, grid := grid2, orb := orb1,
                    progress := progress1, quit := quit1, wallCollision := wc }
  else
    let wc := !insideBoundaries s.mapWidth s.mapHeight snake1
    let grid2 :=
      if wc then s.grid
      else setGrid (setGrid s.grid oldTail.pos false) (headPos snake1) true
    some { s with snake := snake1, grid := grid2, quit := quit1,
                  wallCollision := wc }

/-- Input dispatch of a frame (main.c lines 50-73) feeding the rest of the
frame: a direction key calls `changeDirection`, `q` sets the quit flag, any
other input leaves both alone. -/
def frameCore (cmd : Cmd) (rands : List (Nat × Nat)) (s : GameState) :
    Option GameState :=
  frameAfterInput
    (match cmd with
      | .quit => true
      | _ => s.quit)
    (match cmd with
      | .north => changeDirection s.snake .NORTH
      | .east => changeDirection s.snake .EAST
      | .south => changeDirection s.snake .SOUTH
      | .west => changeDirection s.snake .WEST
      | .quit => s.snake
      | .nop => s.snake)
    rands s

/-- Round start (main.c lines 38-46 and the reset at lines 98-108): a fresh
all-clear grid, a one-segment snake at the field's center (its random initial
direction a parameter), progress 0, and a first orb spawned on the fresh
grid. -/
def roundStart (w h : Nat) (diff : Difficulty) (dir : Direction)
    (rands : List (Nat × Nat)) : Option GameState :=
  let snake := newSnake ⟨((w / 2 : Nat) : Int), ((h / 2 : Nat) : Int)⟩ dir
  let grid : Point → Bool := fun _ => false
  (spawnOrb (orbCandidates rands w h) grid).map (fun orb =>
    { mapWidth := w, mapHeight := h, grid := grid, orb := orb, snake := snake,
      progress := 0, difficulty := diff, quit := false, wallCollision := false,
      lastDelay := 0 })

/-- A full frame (main.c lines 50-126): `frameCore`, then the collision
check against wall or self (line 95); on a collision the dialog either quits
(its answer overwrites `quit`, line 96) or the round is reset (lines
98-108); finally the frame delay is computed from the difficulty (lines
111-126). -/
def frame (cmd : Cmd) (rands : List (Nat × Nat)) (dialogQuit : Bool)
    (resetDir : Direction) (resetRands : List (Nat × Nat)) (s : GameState) :
    Option GameState :=
  (frameCore cmd rands s).bind (fun t =>
    let over := t.wallCollision || (selfCollision t.snake).isSome
    let afterDialog : Option GameState :=
      if over then
        if dialogQuit then some { t with quit := true }
        else roundStart t.mapWidth t.mapHeight t.difficulty resetDir resetRands
      else some t
    afterDialog.map (fun u => { u with lastDelay := delayFor u.difficulty u.progress }))

/-- The `while (!quit)` loop (main.c line 49): run frames for the given
commands, stopping as soon as `quit` holds at the loop head. -/
def runFrames (rands : List (Nat × Nat)) (dialogQuit : Bool)
    (resetDir : Direction) (resetRands : List (Nat × Nat)) :
    List Cmd → GameState → Option GameState
  | [], s => some s
  | c :: rest, s =>
    if s.quit then some s
    else (frame c rands dialogQuit resetDir resetRands s).bind
      (runFrames rands dialogQuit resetDir resetRands rest)

/-- The grid exactly mirrors the cells occupied by the snake's body. -/
def gridMirrors (s : GameState) : Prop :=
  ∀ p : Point, s.grid p = true ↔ p ∈ s.snake.body.map Node.pos

/-- A snake whose two adjacent segments share a position (positions repeat
between head and neck). -/
def snakeDupPos : Snake :=
  { body := [⟨1, ⟨0, 0⟩⟩, ⟨0, ⟨0, 0⟩⟩], direction := .NORTH, length := 2, fresh := 2 }

/-- A well-formed two-segment snake heading NORTH: head (2,3), tail (2,4). -/
def snakeTwo : Snake :=
  { body := [⟨1, ⟨2, 3⟩⟩, ⟨0, ⟨2, 4⟩⟩], direction := .NORTH, length := 2, fresh := 2 }

/-- The length-2 snake obtained from a fresh snake at (5,5) heading EAST by
one advance whose detached tail is re-attached by `grow`. -/
def snakeEaten : Snake :=
  applyOp (newSnake ⟨5, 5⟩ .EAST) .eat

/-- A concrete round state: 4x4 field, one-segment snake at (2,2) heading
NORTH, orb at (0,0), grid cell (2,2) marked. -/
def gsOne : GameState :=
  { mapWidth := 4, mapHeight := 4,
    grid := fun p => decide (p ∈ ([⟨2, 2⟩] : List Point)), orb := ⟨0, 0⟩,
    snake := { body := [⟨0, ⟨2, 2⟩⟩], direction := .NORTH, length := 1, fresh := 1 },
    progress := 0, difficulty := .INCREMENTAL, quit := false,
    wallCollision := false, lastDelay := 0 }

/-- The state `frameCore` reaches from `gsOne` on a `nop` frame: the head
moved to (2,1), cell (2,2) cleared and cell (2,1) marked. -/
def gsOnePost : GameState :=
  { gsOne with
    snake := { body := [⟨1, ⟨2, 1⟩⟩], direction := .NORTH, length := 1, fresh := 2 },
    grid := setGrid (setGrid gsOne.grid ⟨2, 2⟩ false) ⟨2, 1⟩ true,
    quit := false, wallCollision := false }

/-- A concrete growth-frame state: 2x2 field, three-segment snake with head
(0,1) heading EAST, orb at (1,1) so the next advance captures it. -/
def gsGrow : GameState :=
  { mapWidth := 2, mapHeight := 2,
    grid := fun p => decide (p ∈ ([⟨0, 1⟩, ⟨0, 0⟩, ⟨1, 0⟩] : List Point)),
    orb := ⟨1, 1⟩,
    snake := { body := [⟨2, ⟨0, 1⟩⟩, ⟨1, ⟨0, 0⟩⟩, ⟨0, ⟨1, 0⟩⟩],
               direction := .EAST, length := 3, fresh := 3 },
    progress := 0, difficulty := .INCREMENTAL, quit := false,
    wallCollision := false, lastDelay := 0 }

/-- The round-start state of a 4x4 field with the orb spawned at (0,0). -/
def gsRoundStart : GameState :=
  { mapWidth := 4, mapHeight := 4, grid := fun _ => false, orb := ⟨0, 0⟩,
    snake := newSnake ⟨2, 2⟩ .NORTH, progress := 0,
    difficulty := .INCREMENTAL, quit := false, wallCollision := false,
    lastDelay := 0 }

/-- A grid whose only free cell is (1,1). -/
def gridOneFree : Point → Bool :=
  fun p => !decide (p = ⟨1, 1⟩)

/-- The C enum test `direction == (self->direction + 2) % (WEST + 1)`
recognises exactly the 180-degree opposite direction. -/
theorem idx_opposite (d c : Direction) :
    d.idx = (c.idx + 2) % 4 ↔ d = oppositeDir c := by
  cases d <;> cases c <;> decide

/-- C1: for every snake and every current direction, `advance` returns a
detached node equal to the pre-call tail, pushes exactly one new head node at
the pre-call head's position stepped one cell in the current direction,
leaves both the `length` field and the node count unchanged, and the
detached node is not among the chain's nodes. -/
theorem claim_C1 (s : Snake) (h1 : s.body ≠ [])
    (h2 : (s.body.map Node.id).Nodup) (h3 : ∀ n ∈ s.body, n.id < s.fresh) :
    (advance s).2 = s.body.getLastD dummyNode ∧
    (advance s).1.body =
      ⟨s.fresh, stepPoint s.direction (s.body.headD dummyNode).pos⟩ ::
        s.body.dropLast ∧
    (advance s).1.length = s.length ∧
    (advance s).1.body.length = s.body.length ∧
    (advance s).2.id ∉ (advance s).1.body.map Node.id := by
  obtain ⟨body, dir, len, fr⟩ := s
  simp only at h1 h2 h3 ⊢
  obtain ⟨h, t, rfl⟩ := List.exists_cons_of_ne_nil h1
  refine ⟨?_, ?_, rfl, ?_, ?_⟩
  · simp [advance, List.getLastD_eq_getLast?, List.getLast?_eq_getLast]
  · simp [advance]
  · simp [advance]
  · simp only [advance, List.map_cons, List.mem_cons, List.dropLast_cons₂]
    have hmem : (h :: t).getLast (by simp) ∈ h :: t := List.getLast_mem _
    have hlt : ((h :: t).getLast (by simp)).id < fr := h3 _ hmem
    intro hin
    rcases hin with heq | hin2
    · omega
    · -- the tail node's id would be a duplicate inside the dropLast prefix
      have hsplit : (h :: t).dropLast ++ [(h :: t).getLast (by simp)] = h :: t :=
        List.dropLast_append_getLast _
      have h2' : ((((h :: t).dropLast ++ [(h :: t).getLast (by simp)]).map Node.id)).Nodup := by
        rw [hsplit]; exact h2
      rw [List.map_append] at h2'
      have hdisj := List.disjoint_of_nodup_append h2'
      exact hdisj hin2 (by simp)

/-- Closed witness for C1 at a concrete two-segment snake. -/
theorem claim_C1_witness :
    (snakeTwo.body ≠ [] ∧ (snakeTwo.body.map Node.id).Nodup ∧
      ∀ n ∈ snakeTwo.body, n.id < snakeTwo.fresh) ∧
    ((advance snakeTwo).2 = snakeTwo.body.getLastD dummyNode ∧
     (advance snakeTwo).1.body =
       ⟨snakeTwo.fresh,
         stepPoint snakeTwo.direction (snakeTwo.body.headD dummyNode).pos⟩ ::
         snakeTwo.body.dropLast ∧
     (advance snakeTwo).1.length = snakeTwo.length ∧
     (advance snakeTwo).1.body.length = snakeTwo.body.length ∧
     (advance snakeTwo).2.id ∉ (advance snakeTwo).1.body.map Node.id) :=
  ⟨⟨by decide, by decide, by decide⟩,
    claim_C1 snakeTwo (by decide) (by decide) (by decide)⟩

/-- C4: `changeDirection d` is a no-op when `d` is the current heading or
its exact opposite while `length > 1`, otherwise sets the heading to `d`;
it never touches the chain, the `length` field or the allocator, and with
`length == 1` the heading always ends up equal to `d`. -/
theorem claim_C4 (s : Snake) (d : Direction) :
    (d = s.direction → changeDirection s d = s) ∧
    (1 < s.length → d = oppositeDir s.direction → changeDirection s d = s) ∧
    (d ≠ s.direction → ¬(1 < s.length ∧ d = oppositeDir s.direction) →
      (changeDirection s d).direction = d) ∧
    (changeDirection s d).body = s.body ∧
    (changeDirection s d).length = s.length ∧
    (changeDirection s d).fresh = s.fresh ∧
    (s.length = 1 → (changeDirection s d).direction = d) := by
  unfold changeDirection
  by_cases hcond : d = s.direction ∨ (1 < s.length ∧ d.idx = (s.direction.idx + 2) % 4)
  · rw [if_pos hcond]
    refine ⟨fun _ => rfl, fun _ _ => rfl, ?_, rfl, rfl, rfl, ?_⟩
    · intro hne hnopp
      rcases hcond with heq | ⟨hlen, hidx⟩
      · exact absurd heq hne
      · exact absurd ⟨hlen, (idx_opposite d s.direction).mp hidx⟩ hnopp
    · intro hlen1
      rcases hcond with heq | ⟨hlen, _⟩
      · rw [heq]
      · omega
  · rw [if_neg hcond]
    push_neg at hcond
    refine ⟨fun heq => absurd heq hcond.1, ?_, fun _ _ => rfl, rfl, rfl, rfl,
      fun _ => rfl⟩
    intro hlen hopp
    exact absurd ((idx_opposite d s.direction).mpr hopp) (hcond.2 hlen)

/-- Closed witness for C4: a length-2 snake heading NORTH rejects the exact
opposite SOUTH. -/
theorem claim_C4_witness :
    1 < snakeTwo.length ∧ Direction.SOUTH = oppositeDir snakeTwo.direction ∧
    changeDirection snakeTwo .SOUTH = snakeTwo :=
  ⟨by decide, by decide, (claim_C4 snakeTwo .SOUTH).2.1 (by decide) (by decide)⟩

/-- The component-wise comparison of the inner loop of `selfCollision` finds
a hit exactly when the outer node's position occurs among the scanned
positions. -/
theorem any_pos_eq (n : Node) (l : List Node) :
    (l.any (fun m => m.pos.x = n.pos.x ∧ m.pos.y = n.pos.y)) = true ↔
      n.pos ∈ l.map Node.pos := by
  simp only [List.any_eq_true, decide_eq_true_eq, List.mem_map]
  constructor
  · rintro ⟨m, hm, hx, hy⟩
    refine ⟨m, hm, ?_⟩
    cases hp : m.pos
    cases hq : n.pos
    simp_all
  · rintro ⟨m, hm, heq⟩
    exact ⟨m, hm, by rw [heq], by rw [heq]⟩

/-- The code's scan computes the first position from the head that recurs
among all positions closer to the tail. -/
theorem findCollision_eq_firstRepeat (l : List Node) :
    findCollision l = firstRepeat (l.map Node.pos) := by
  induction l with
  | nil => rfl
  | cons n rest ih =>
    simp only [findCollision, firstRepeat, List.map_cons]
    cases hb : rest.any (fun m => m.pos.x = n.pos.x ∧ m.pos.y = n.pos.y) with
    | true =>
      have hmem := (any_pos_eq n rest).mp hb
      simp [hmem]
    | false =>
      have hnm : n.pos ∉ rest.map Node.pos := by
        intro hm
        rw [(any_pos_eq n rest).mpr hm] at hb
        exact Bool.noConfusion hb
      simp [hnm, ih]

/-- `firstRepeat` finds nothing exactly on duplicate-free position lists. -/
theorem firstRepeat_none_iff (pl : List Point) :
    firstRepeat pl = none ↔ pl.Nodup := by
  induction pl with
  | nil => simp [firstRepeat]
  | cons p rest ih =>
    by_cases hmem : p ∈ rest
    · simp [firstRepeat, hmem]
    · simp [firstRepeat, hmem, ih]

/-- On chains whose adjacent nodes never share a position, the code's scan
agrees with the spec's skip-the-neck scan. -/
theorem findCollision_eq_skipNeck (l : List Node)
    (hadj : l.Chain' (fun a b => a.pos ≠ b.pos)) :
    findCollision l = findCollisionSkipNeck l := by
  induction l with
  | nil => rfl
  | cons n rest ih =>
    match rest, hadj with
    | [], _ => simp [findCollision, findCollisionSkipNeck]
    | m :: rest2, hadj =>
      have hne : n.pos ≠ m.pos := (List.chain'_cons.mp hadj).1
      have htl : (m :: rest2).Chain' (fun a b => a.pos ≠ b.pos) :=
        (List.chain'_cons.mp hadj).2
      have hPm : (m.pos.x = n.pos.x ∧ m.pos.y = n.pos.y) = False := by
        simp only [eq_iff_iff, iff_false]
        rintro ⟨hx, hy⟩
        apply hne
        cases hp : n.pos
        cases hq : m.pos
        simp_all
      simp only [findCollision, findCollisionSkipNeck, List.any_cons,
        List.drop_one, List.tail_cons, hPm, decide_False, Bool.false_or]
      cases hb : rest2.any (fun m2 => m2.pos.x = n.pos.x ∧ m2.pos.y = n.pos.y) with
      | true => rfl
      | false =>
        simpa [findCollision, findCollisionSkipNeck] using ih htl

/-- Counterexample to C2 as stated: on a snake whose head and neck share a
position, `selfCollision` reports that position, whereas the claimed scan -
which skips the immediately preceding segment - reports none. -/
theorem claim_C2_cex :
    selfCollision snakeDupPos = some ⟨0, 0⟩ ∧
    selfCollisionSkipNeck snakeDupPos = none := by
  constructor <;> rfl

/-- C2 (amended): the inner scan starts at - and therefore includes - the
outer segment's immediate predecessor; `selfCollision` returns the position
of the first segment from the head whose position recurs among all segments
closer to the tail, and returns none exactly when all segment positions are
distinct.  On snakes whose adjacent segments never coincide (true of every
settled reachable state) this agrees with the claimed skip-the-neck scan. -/
theorem claim_C2 (s : Snake) :
    selfCollision s = firstRepeat (s.body.map Node.pos) ∧
    (selfCollision s = none ↔ (s.body.map Node.pos).Nodup) ∧
    (s.body.Chain' (fun a b => a.pos ≠ b.pos) →
      selfCollision s = selfCollisionSkipNeck s) := by
  refine ⟨findCollision_eq_firstRepeat s.body, ?_, ?_⟩
  · rw [selfCollision, findCollision_eq_firstRepeat]
    exact firstRepeat_none_iff _
  · intro hadj
    exact findCollision_eq_skipNeck s.body hadj

/-- Closed witness for C2 at a concrete snake with pairwise-distinct
adjacent positions. -/
theorem claim_C2_witness :
    snakeTwo.body.Chain' (fun a b => a.pos ≠ b.pos) ∧
    selfCollision snakeTwo = selfCollisionSkipNeck snakeTwo := by
  have hc : snakeTwo.body.Chain' (fun a b => a.pos ≠ b.pos) := by
    refine List.chain'_cons.mpr ⟨?_, List.chain'_singleton _⟩
    decide
  exact ⟨hc, (claim_C2 snakeTwo).2.2 hc⟩

/-- `advance` never touches the `length` field. -/
theorem advance_length_field (s : Snake) : (advance s).1.length = s.length := by
  obtain ⟨body, dir, len, fr⟩ := s
  cases body <;> rfl

/-- On a nonempty chain `advance` allocates exactly one node. -/
theorem advance_fresh (s : Snake) (h : s.body ≠ []) :
    (advance s).1.fresh = s.fresh + 1 := by
  obtain ⟨body, dir, len, fr⟩ := s
  simp only at h
  obtain ⟨hd, t, rfl⟩ := List.exists_cons_of_ne_nil h
  rfl

/-- An advance immediately followed by `grow` of its detached tail prepends
the new head node and keeps the rest of the chain intact. -/
theorem eat_body (s : Snake) (hne : s.body ≠ []) :
    (grow (advance s).1 (advance s).2).body =
      (⟨s.fresh, stepPoint s.direction (s.body.headD dummyNode).pos⟩ : Node) ::
        s.body := by
  obtain ⟨body, dir, len, fr⟩ := s
  simp only at hne ⊢
  obtain ⟨hd, t, rfl⟩ := List.exists_cons_of_ne_nil hne
  simp only [advance, grow, List.dropLast_cons₂, List.cons_append, List.headD_cons]
  rw [List.dropLast_append_getLast]

/-- Chain well-formedness is preserved by `advance`. -/
theorem snakeInv_advance (s : Snake) (h : SnakeInv s) : SnakeInv (advance s).1 := by
  obtain ⟨hne, hlen, hnd, hid⟩ := h
  obtain ⟨body, dir, len, fr⟩ := s
  simp only at hne hlen hnd hid
  obtain ⟨hd, t, rfl⟩ := List.exists_cons_of_ne_nil hne
  have hsub : ((hd :: t).dropLast).Sublist (hd :: t) := List.dropLast_sublist _
  refine ⟨by simp [advance], ?_, ?_, ?_⟩
  · simpa [advance] using hlen
  · simp only [advance, List.dropLast_cons₂, List.map_cons, List.nodup_cons]
    refine ⟨?_, hnd.sublist (hsub.map Node.id)⟩
    intro hmem
    rw [List.mem_map] at hmem
    obtain ⟨n, hn, hnid⟩ := hmem
    have := hid n (hsub.mem hn)
    omega
  · simp only [advance, List.dropLast_cons₂]
    intro n hn
    rw [List.mem_cons] at hn
    rcases hn with rfl | hn2
    · simp
    · have := hid n (hsub.mem hn2)
      omega

/-- Chain well-formedness is preserved by each game-loop operation. -/
theorem snakeInv_applyOp (s : Snake) (op : SnakeOp) (h : SnakeInv s) :
    SnakeInv (applyOp s op) := by
  cases op with
  | turn d =>
    obtain ⟨h1, h2, h3, h4⟩ := h
    show SnakeInv (changeDirection s d)
    unfold changeDirection
    split_ifs
    · exact ⟨h1, h2, h3, h4⟩
    · exact ⟨h1, h2, h3, h4⟩
  | move => exact snakeInv_advance s h
  | eat =>
    obtain ⟨hne, hlen, hnd, hid⟩ := h
    have hb : (grow (advance s).1 (advance s).2).body =
        (⟨s.fresh, stepPoint s.direction (s.body.headD dummyNode).pos⟩ : Node) ::
          s.body := eat_body s hne
    have hlenf : (grow (advance s).1 (advance s).2).length = s.length + 1 := by
      show (advance s).1.length + 1 = s.length + 1
      rw [advance_length_field]
    have hfr : (grow (advance s).1 (advance s).2).fresh = s.fresh + 1 := by
      show (advance s).1.fresh = s.fresh + 1
      exact advance_fresh s hne
    refine ⟨by rw [show applyOp s .eat = grow (advance s).1 (advance s).2 from rfl, hb]; simp,
      ?_, ?_, ?_⟩
    · show (grow (advance s).1 (advance s).2).body.length =
        (grow (advance s).1 (advance s).2).length
      rw [hb, hlenf]
      simpa using hlen
    · show ((grow (advance s).1 (advance s).2).body.map Node.id).Nodup
      rw [hb]
      simp only [List.map_cons, List.nodup_cons]
      refine ⟨?_, hnd⟩
      intro hmem
      rw [List.mem_map] at hmem
      obtain ⟨n, hn, hnid⟩ := hmem
      have := hid n hn
      omega
    · show ∀ n ∈ (grow (advance s).1 (advance s).2).body,
        n.id < (grow (advance s).1 (advance s).2).fresh
      rw [hb, hfr]
      intro n hn
      rw [List.mem_cons] at hn
      rcases hn with rfl | hn2
      · simp
      · have := hid n hn2
        omega

/-- A freshly created snake is well-formed. -/
theorem snakeInv_newSnake (c : Point) (d : Direction) : SnakeInv (newSnake c d) := by
  refine ⟨by simp [newSnake], by simp [newSnake], by simp [newSnake], ?_⟩
  intro n hn
  simp only [newSnake, List.mem_singleton] at hn
  subst hn
  simp [newSnake]

/-- Node-count and distinctness facts that do hold along every operation
sequence: the node list is always nonempty and has exactly `length`
pairwise-distinct nodes.  (These concern the nodes and the next-chain
order; the walk over the actual `prev` pointers is a different matter -
`grow` leaves it broken, see the C3 theorem below.) -/
theorem runOps_wellFormed (c : Point) (d : Direction) (ops : List SnakeOp) :
    (runOps (newSnake c d) ops).body.length = (runOps (newSnake c d) ops).length ∧
    ((runOps (newSnake c d) ops).body.map Node.id).Nodup ∧
    (runOps (newSnake c d) ops).body ≠ [] := by
  have hfold : ∀ (l : List SnakeOp) (s : Snake), SnakeInv s → SnakeInv (l.foldl applyOp s) := by
    intro l
    induction l with
    | nil => intro s hs; exact hs
    | cons op rest ih => intro s hs; exact ih _ (snakeInv_applyOp s op hs)
  have hinv : SnakeInv (runOps (newSnake c d) ops) :=
    hfold ops _ (snakeInv_newSnake c d)
  exact ⟨hinv.2.1, hinv.2.2.1, hinv.1⟩

/-- C3 is false of the program: after a single advance-and-grow step (orb
captured on the first frame), the settled, drawn state has `length = 2` and
two live nodes - head id 1 and the re-attached tail id 0 - yet the walk
from the head via the actual `prev` pointers visits only the head and never
reaches the tail: `advance` nulled the new tail's `prev` (snake.c line 78)
and `grow` restores no `prev` pointer at all (fifth conjunct), so the chain
stops one node short and visits `length - 1` segments.  The next plain
advance happens to pop the disconnected tail and heal the walk (final
conjunct), but the broken state is settled - it is drawn, and
`selfCollision`'s prev-order scan runs on it that same frame. -/
theorem claim_C3 (center : Point) (d : Direction) :
    (runOpsPtr (newSnakePtr center d) [.eat]).snake.length = 2 ∧
    (runOpsPtr (newSnakePtr center d) [.eat]).snake.body.length = 2 ∧
    ((runOpsPtr (newSnakePtr center d) [.eat]).snake.body.getLastD dummyNode).id = 0 ∧
    prevChainIds (runOpsPtr (newSnakePtr center d) [.eat]) = [1] ∧
    (growPtr (advancePtr (newSnakePtr center d)).1
        (advancePtr (newSnakePtr center d)).2).prev =
      (advancePtr (newSnakePtr center d)).1.prev ∧
    prevChainIds (runOpsPtr (newSnakePtr center d) [.eat, .move]) = [2, 1] := by
  exact ⟨rfl, rfl, rfl, rfl, rfl, rfl⟩

/-- On any well-formed chain, the `destroySnake` walk visits only the head:
the head's `next` pointer is `NULL` (`next` points toward the head), so the
freeing loop stops after one node. -/
theorem destroy_visits_only_head (s : Snake) (hne : s.body ≠ [])
    (hnd : (s.body.map Node.id).Nodup) :
    destroyedNodes s = [s.body.headD dummyNode] := by
  obtain ⟨body, dir, len, fr⟩ := s
  simp only at hne hnd ⊢
  obtain ⟨hd, rest, rfl⟩ := List.exists_cons_of_ne_nil hne
  rw [List.map_cons, List.nodup_cons] at hnd
  have hnext : nextToward (hd :: rest) hd = none := by
    rw [nextToward]
    rw [List.findSome?_eq_none_iff]
    intro q hq
    obtain ⟨a, b⟩ := q
    have hzip := List.of_mem_zip hq
    have hq2 : b ∈ rest := by simpa using hzip.2
    have hne2 : b.id ≠ hd.id := by
      intro heq
      exact hnd.1 (heq ▸ List.mem_map_of_mem Node.id hq2)
    simp [hne2]
  show destroyLoop (hd :: rest) ((hd :: rest).length + 1) (some hd) = [hd]
  simp only [List.length_cons]
  rw [destroyLoop, hnext, destroyLoop]

/-- C8: the failing input - a snake of length 2 (one growth after creation).
`destroySnake` walks from `self->head` following `next`, but the head's
`next` is `NULL`, so the loop frees exactly one of the two live nodes. -/
theorem claim_C8 :
    snakeEaten.length = 2 ∧ snakeEaten.body.length = 2 ∧
    (destroyedNodes snakeEaten).length = 1 := by
  decide

/-- C6: every point `spawnOrb` returns had an unoccupied grid cell at call
time and lies in `[0,width] x [0,height]`; hence when exactly one in-field
cell is free, an accepted sample is that cell.  And whenever the sample
stream contains some free cell, the loop terminates with an accepted
sample. -/
theorem claim_C6 (rands : List (Nat × Nat)) (w h : Nat) (grid : Point → Bool) :
    (∀ p, spawnOrb (orbCandidates rands w h) grid = some p →
      grid p = false ∧ inField w h p ∧
      ∀ p0, (∀ q, inField w h q → (grid q = false ↔ q = p0)) → p = p0) ∧
    ((∃ c ∈ orbCandidates rands w h, grid c = false) →
      (spawnOrb (orbCandidates rands w h) grid).isSome = true) := by
  constructor
  · intro p hp
    rw [spawnOrb] at hp
    have hmem : p ∈ orbCandidates rands w h := List.mem_of_find?_eq_some hp
    have hfalse : grid p = false := by
      simpa using List.find?_some hp
    have hinf : inField w h p := by
      rw [orbCandidates, List.mem_map] at hmem
      obtain ⟨r, hr, rfl⟩ := hmem
      refine ⟨by positivity, ?_, by positivity, ?_⟩
      · show ((r.1 % (w + 1) : Nat) : Int) ≤ (w : Int)
        exact_mod_cast Nat.lt_succ_iff.mp (Nat.mod_lt _ (Nat.succ_pos w))
      · show ((r.2 % (h + 1) : Nat) : Int) ≤ (h : Int)
        exact_mod_cast Nat.lt_succ_iff.mp (Nat.mod_lt _ (Nat.succ_pos h))
    exact ⟨hfalse, hinf, fun p0 hp0 => (hp0 p hinf).mp hfalse⟩
  · rintro ⟨c, hc, hcg⟩
    rw [spawnOrb, List.find?_isSome]
    exact ⟨c, hc, by simp [hcg]⟩

/-- Closed witness for C6: a 1x1-indexed field whose only free cell is
(1,1); the first sample is accepted and is that cell. -/
theorem claim_C6_witness :
    spawnOrb (orbCandidates [(1, 1)] 1 1) gridOneFree = some ⟨1, 1⟩ ∧
    gridOneFree ⟨1, 1⟩ = false ∧ inField 1 1 (⟨1, 1⟩ : Point) := by
  have happ := (claim_C6 [(1, 1)] 1 1 gridOneFree).1 ⟨1, 1⟩ (by rfl)
  exact ⟨by rfl, happ.1, happ.2.1⟩

/-- C7 (amended): `spawnOrb` has no occupied-count check and no board-full
outcome: on a fully occupied grid every sample is rejected, so the
rejection loop accepts nothing no matter how long the sample stream is
(the C do-while spins forever). -/
theorem claim_C7 (cands : List Point) (grid : Point → Bool)
    (hfull : ∀ p, grid p = true) : spawnOrb cands grid = none := by
  rw [spawnOrb, List.find?_eq_none]
  intro p _
  simp [hfull p]

/-- Counterexample to C7 as stated: on a fully occupied single-cell field,
five successive samples are all rejected and no board-full outcome is
produced. -/
theorem claim_C7_cex :
    spawnOrb (orbCandidates [(0, 0), (1, 1), (2, 2), (3, 3), (4, 4)] 0 0)
      (fun _ => true) = none := by
  rfl

/-- Closed witness for C7 on a concrete fully occupied grid. -/
theorem claim_C7_witness :
    (∀ p : Point, (fun _ : Point => true) p = true) ∧
    spawnOrb ([⟨0, 0⟩] : List Point) (fun _ => true) = none :=
  ⟨fun _ => rfl, claim_C7 [⟨0, 0⟩] (fun _ => true) (fun _ => rfl)⟩

/-- A frame leaves `progress` unchanged except on the growth path, where it
becomes the snake's new length over `mapWidth * mapHeight`. -/
theorem frameAfterInput_progress (q1 : Bool) (sn : Snake)
    (rands : List (Nat × Nat)) (s t : GameState)
    (hEq : frameAfterInput q1 sn rands s = some t) :
    t.progress = s.progress ∨
      t.progress = progressOf t.snake.length s.mapWidth s.mapHeight := by
  simp only [frameAfterInput] at hEq
  by_cases hgrow : headPos (advance sn).1 = s.orb
  · rw [if_pos hgrow] at hEq
    cases hspawn : spawnOrb (orbCandidates rands s.mapWidth s.mapHeight)
        (setGrid s.grid (advance sn).2.pos true) with
    | none => rw [hspawn] at hEq; exact Option.noConfusion hEq
    | some orb1 =>
      rw [hspawn] at hEq
      cases hEq
      right
      rfl
  · rw [if_neg hgrow] at hEq
    cases hEq
    left
    rfl

/-- The post-input part of a frame depends on the quit flag only through the
resulting `quit` field. -/
theorem frameAfterInput_quit_map (sn : Snake) (q : Bool)
    (rands : List (Nat × Nat)) (s : GameState) :
    frameAfterInput true sn rands s =
      (frameAfterInput q sn rands s).map (fun t => { t with quit := true }) := by
  simp only [frameAfterInput]
  by_cases hgrow : headPos (advance sn).1 = s.orb
  · rw [if_pos hgrow, if_pos hgrow]
    cases hspawn : spawnOrb (orbCandidates rands s.mapWidth s.mapHeight)
        (setGrid s.grid (advance sn).2.pos true) with
    | none => rfl
    | some orb1 => rfl
  · rw [if_neg hgrow, if_neg hgrow]
    rfl

/-- C9 (amended): a frame either keeps `progress` or - on a growth frame -
sets it to `length / (mapWidth * mapHeight)` (the code divides by
`mapWidth * mapHeight`, not by the `(width+1)*(height+1)` cell count); the
INCREMENTAL delay `max - floor(diff * progress)` decreases monotonically
with snake length and equals the HARD delay (33333333ns) at progress 1,
which the code's progress reaches already at `length = mapWidth * mapHeight`. -/
theorem claim_C9 (w h l1 l2 : Nat) (hw : 0 < w) (hh : 0 < h) (hle : l1 ≤ l2) :
    (∀ (cmd : Cmd) (rands : List (Nat × Nat)) (s t : GameState),
      frameCore cmd rands s = some t →
      t.progress = s.progress ∨
        t.progress = progressOf t.snake.length s.mapWidth s.mapHeight) ∧
    delayIncremental (progressOf l2 w h) ≤ delayIncremental (progressOf l1 w h) ∧
    progressOf (w * h) w h = 1 ∧
    delayIncremental 1 = 33333333 ∧
    delayFor .HARD 0 = 33333333 := by
  have hwq : (0 : ℚ) < (w : ℚ) := by exact_mod_cast hw
  have hhq : (0 : ℚ) < (h : ℚ) := by exact_mod_cast hh
  have hwh : (0 : ℚ) < (w : ℚ) * (h : ℚ) := mul_pos hwq hhq
  refine ⟨?_, ?_, ?_, ?_, rfl⟩
  · intro cmd rands s t hEq
    exact frameAfterInput_progress _ _ rands s t hEq
  · unfold delayIncremental
    have hp : progressOf l1 w h ≤ progressOf l2 w h := by
      unfold progressOf
      rw [div_eq_mul_inv, div_eq_mul_inv]
      have hcast : (l1 : ℚ) ≤ (l2 : ℚ) := by exact_mod_cast hle
      exact mul_le_mul_of_nonneg_right hcast (by positivity)
    have hm : (50000000 : ℚ) * progressOf l1 w h ≤ 50000000 * progressOf l2 w h :=
      mul_le_mul_of_nonneg_left hp (by norm_num)
    have hf := Int.floor_mono hm
    omega
  · unfold progressOf
    rw [show ((w * h : Nat) : ℚ) = (w : ℚ) * (h : ℚ) by push_cast; ring]
    exact div_self (ne_of_gt hwh)
  · unfold delayIncremental
    norm_num

/-- Closed witness for C9 on a 2x2 field with lengths 1 and 2. -/
theorem claim_C9_witness :
    (0 < 2 ∧ (1 : Nat) ≤ 2) ∧
    delayIncremental (progressOf 2 2 2) ≤ delayIncremental (progressOf 1 2 2) ∧
    progressOf (2 * 2) 2 2 = 1 :=
  ⟨⟨by decide, by decide⟩,
    (claim_C9 2 2 1 2 (by decide) (by decide) (by decide)).2.1,
    (claim_C9 2 2 1 2 (by decide) (by decide) (by decide)).2.2.1⟩

/-- Counterexample to C9 as stated: a growth frame on a 2x2 field with the
snake reaching length 4 sets `progress` to `4 / (2*2) = 1`, not to the
claimed `4 / ((2+1)*(2+1)) = 4/9`. -/
theorem claim_C9_cex :
    (frameCore Cmd.nop [(2, 2)] gsGrow).map GameState.progress = some 1 ∧
    progressClaimed 4 2 2 = 4 / 9 ∧ ((4 : ℚ) / 9 ≠ 1) := by
  refine ⟨?_, ?_, by norm_num⟩
  · rw [show (frameCore Cmd.nop [(2, 2)] gsGrow).map GameState.progress =
      some (progressOf 4 2 2) from rfl]
    norm_num [progressOf]
  · norm_num [progressClaimed]

/-- C10 (amended): a Quit command only sets the loop flag - the frame still
runs every remaining step exactly as a no-op-input frame would (advance,
growth handling, collision checks, draw, delay); when the frame ends with no
collision the flag survives, and the loop stops before running any further
frame.  (On a collision in the same frame the dialog's answer overwrites
the flag, main.c line 96.) -/
theorem claim_C10 (rands : List (Nat × Nat)) (s : GameState) :
    (frameCore Cmd.quit rands s =
      (frameCore Cmd.nop rands s).map (fun t => { t with quit := true })) ∧
    (∀ (dq : Bool) (rdir : Direction) (rrands : List (Nat × Nat)) (t : GameState),
      frameCore Cmd.quit rands s = some t →
      t.wallCollision = false → selfCollision t.snake = none →
      frame Cmd.quit rands dq rdir rrands s =
        some { t with lastDelay := delayFor t.difficulty t.progress } ∧
      t.quit = true) ∧
    (∀ (rands2 : List (Nat × Nat)) (dq : Bool) (rdir : Direction)
      (rrands : List (Nat × Nat)) (cs : List Cmd) (u : GameState),
      u.quit = true → runFrames rands2 dq rdir rrands cs u = some u) := by
  have hmain : frameCore Cmd.quit rands s =
      (frameCore Cmd.nop rands s).map (fun t => { t with quit := true }) := by
    show frameAfterInput true s.snake rands s =
      (frameAfterInput s.quit s.snake rands s).map (fun t => { t with quit := true })
    exact frameAfterInput_quit_map s.snake s.quit rands s
  refine ⟨hmain, ?_, ?_⟩
  · intro dq rdir rrands t hEq hwc hsc
    constructor
    · rw [frame, hEq]
      simp [hwc, hsc]
    · rw [hmain] at hEq
      cases hnop : frameCore Cmd.nop rands s with
      | none => rw [hnop] at hEq; exact Option.noConfusion hEq
      | some t0 =>
        rw [hnop] at hEq
        simp only [Option.map_some'] at hEq
        cases hEq
        rfl
  · intro rands2 dq rdir rrands cs u hq
    cases cs with
    | nil => rfl
    | cons c rest =>
      unfold runFrames
      simp [hq]

/-- Counterexample to C10 as stated: with a Quit command read at the start
of the frame, the frame still advances the snake (the head moves from (2,2)
to (2,1) and the chain changes) even though the quit flag is set. -/
theorem claim_C10_cex :
    (frameCore Cmd.quit [] gsOne).map (fun t => t.snake.body) =
      some [⟨1, ⟨2, 1⟩⟩] ∧
    gsOne.snake.body ≠ [⟨1, ⟨2, 1⟩⟩] ∧
    (frameCore Cmd.quit [] gsOne).map GameState.quit = some true := by
  exact ⟨rfl, by decide, rfl⟩

/-- Closed witness for C10 at the concrete state `gsOne`. -/
theorem claim_C10_witness :
    frameCore Cmd.quit [] gsOne = some { gsOnePost with quit := true } ∧
    frame Cmd.quit [] false .NORTH [] gsOne =
      some { { gsOnePost with quit := true } with
        lastDelay := delayFor Difficulty.INCREMENTAL 0 } ∧
    runFrames [] false .NORTH [] [Cmd.nop] { gsOne with quit := true } =
      some { gsOne with quit := true } := by
  have happ := (claim_C10 [] gsOne).2.1 false .NORTH [] { gsOnePost with quit := true }
    rfl rfl rfl
  exact ⟨rfl, happ.1,
    (claim_C10 [] gsOne).2.2 [] false .NORTH [] [Cmd.nop] _ rfl⟩

/-- `changeDirection` never touches the chain. -/
theorem changeDirection_body (s : Snake) (d : Direction) :
    (changeDirection s d).body = s.body := by
  unfold changeDirection
  split_ifs <;> rfl

/-- The chain after `advance`: fresh head node at the stepped position, old
chain minus its tail. -/
theorem advance_body (s : Snake) (h : s.body ≠ []) :
    (advance s).1.body =
      (⟨s.fresh, stepPoint s.direction (s.body.headD dummyNode).pos⟩ : Node) ::
        s.body.dropLast := by
  obtain ⟨body, dir, len, fr⟩ := s
  simp only at h ⊢
  obtain ⟨hd, t2, rfl⟩ := List.exists_cons_of_ne_nil h
  simp [advance]

/-- The node `advance` detaches sits at the old tail's position. -/
theorem advance_detached_pos (s : Snake) (h : s.body ≠ []) :
    (advance s).2.pos = (s.body.getLastD dummyNode).pos := by
  obtain ⟨body, dir, len, fr⟩ := s
  simp only at h ⊢
  obtain ⟨hd, t2, rfl⟩ := List.exists_cons_of_ne_nil h
  show ((hd :: t2).getLast (by simp)).pos = ((hd :: t2).getLastD dummyNode).pos
  rw [List.getLastD_eq_getLast?, List.getLast?_eq_getLast _ (List.cons_ne_nil hd t2),
    Option.getD_some]

/-- Splitting a chain's positions into the dropLast prefix and the tail's
position. -/
theorem body_positions_split (l : List Node) (h : l ≠ []) :
    l.map Node.pos = l.dropLast.map Node.pos ++ [(l.getLastD dummyNode).pos] := by
  conv_lhs => rw [← List.dropLast_append_getLast h]
  rw [List.map_append, List.getLastD_eq_getLast?, List.getLast?_eq_getLast _ h,
    Option.getD_some]
  simp only [List.map_cons, List.map_nil]

/-- Grid-mirror preservation through the post-input part of a frame: if the
grid mirrored the body, the body's positions were duplicate-free, and the
frame ends without a wall collision (so `draw` ran), the grid mirrors the
new body. -/
theorem frameAfterInput_mirrors (q1 : Bool) (sn : Snake)
    (rands : List (Nat × Nat)) (s t : GameState)
    (hsnb : sn.body = s.snake.body) (hmir : gridMirrors s)
    (hnd : (s.snake.body.map Node.pos).Nodup) (hne : s.snake.body ≠ [])
    (hEq : frameAfterInput q1 sn rands s = some t)
    (hwc : t.wallCollision = false) : gridMirrors t := by
  have hne2 : sn.body ≠ [] := by rw [hsnb]; exact hne
  have hsplit := body_positions_split sn.body hne2
  have hndsn : (sn.body.map Node.pos).Nodup := by rw [hsnb]; exact hnd
  simp only [frameAfterInput] at hEq
  by_cases hgrow : headPos (advance sn).1 = s.orb
  · rw [if_pos hgrow] at hEq
    cases hspawn : spawnOrb (orbCandidates rands s.mapWidth s.mapHeight)
        (setGrid s.grid (advance sn).2.pos true) with
    | none => rw [hspawn] at hEq; exact Option.noConfusion hEq
    | some orb1 =>
      rw [hspawn] at hEq
      cases hEq
      have hwcb : (!insideBoundaries s.mapWidth s.mapHeight
          (grow (advance sn).1 (advance sn).2)) = false := hwc
      have hgb : (grow (advance sn).1 (advance sn).2).body =
          (⟨sn.fresh, stepPoint sn.direction (sn.body.headD dummyNode).pos⟩ : Node) ::
            sn.body := eat_body sn hne2
      have hhp : headPos (grow (advance sn).1 (advance sn).2) =
          stepPoint sn.direction (sn.body.headD dummyNode).pos := by
        rw [headPos, hgb]
        rfl
      intro p
      show (if (!insideBoundaries s.mapWidth s.mapHeight
              (grow (advance sn).1 (advance sn).2)) = true
            then setGrid s.grid (advance sn).2.pos true
            else setGrid (setGrid s.grid (advance sn).2.pos true)
              (headPos (grow (advance sn).1 (advance sn).2)) true) p = true ↔
          p ∈ (grow (advance sn).1 (advance sn).2).body.map Node.pos
      rw [if_neg (by rw [hwcb]; exact Bool.false_ne_true), hgb, hhp,
        advance_detached_pos sn hne2, List.map_cons]
      have hmem := hmir p
      rw [← hsnb] at hmem
      by_cases hp1 : p = stepPoint sn.direction (sn.body.headD dummyNode).pos
      · simp [setGrid, hp1]
      · by_cases hp2 : p = (sn.body.getLastD dummyNode).pos
        · have htpmem : p ∈ sn.body.map Node.pos := by
            rw [hsplit, hp2]
            exact List.mem_append_right _ (List.mem_singleton_self _)
          constructor
          · exact fun _ => List.mem_cons.mpr (Or.inr htpmem)
          · exact fun _ => by simp [setGrid, hp1, hp2]
        · simp only [setGrid, if_neg hp1, if_neg hp2, List.mem_cons]
          rw [hmem]
          constructor
          · intro hin
            exact Or.inr hin
          · rintro (heq | hin)
            · exact absurd heq hp1
            · exact hin
  · rw [if_neg hgrow] at hEq
    cases hEq
    have hwcb : (!insideBoundaries s.mapWidth s.mapHeight (advance sn).1) = false := hwc
    have hab := advance_body sn hne2
    have hhp : headPos (advance sn).1 =
        stepPoint sn.direction (sn.body.headD dummyNode).pos := by
      rw [headPos, hab]
      rfl
    intro p
    show (if (!insideBoundaries s.mapWidth s.mapHeight (advance sn).1) = true
          then s.grid
          else setGrid (setGrid s.grid (advance sn).2.pos false)
            (headPos (advance sn).1) true) p = true ↔
        p ∈ (advance sn).1.body.map Node.pos
    rw [if_neg (by rw [hwcb]; exact Bool.false_ne_true), hab, hhp,
      advance_detached_pos sn hne2, List.map_cons]
    have hmem := hmir p
    rw [← hsnb] at hmem
    by_cases hp1 : p = stepPoint sn.direction (sn.body.headD dummyNode).pos
    · simp [setGrid, hp1]
    · by_cases hp2 : p = (sn.body.getLastD dummyNode).pos
      · -- the cleared tail cell: it is not among the remaining positions
        have hnotin : p ∉ sn.body.dropLast.map Node.pos := by
          rw [hp2]
          rw [hsplit] at hndsn
          intro hin
          exact (List.disjoint_of_nodup_append hndsn) hin
            (List.mem_singleton_self _)
        constructor
        · intro hLHS
          simp only [setGrid] at hLHS
          rw [if_neg hp1, if_pos hp2] at hLHS
          exact absurd hLHS Bool.false_ne_true
        · intro hin
          rw [List.mem_cons] at hin
          rcases hin with heq | hin2
          · exact absurd heq hp1
          · exact absurd hin2 hnotin
      · simp only [setGrid, if_neg hp1, if_neg hp2, List.mem_cons]
        rw [hmem, hsplit, List.mem_append]
        constructor
        · rintro (hin | hin)
          · exact Or.inr hin
          · rw [List.mem_singleton] at hin
            exact absurd hin hp2
        · rintro (heq | hin)
          · exact absurd heq hp1
          · exact Or.inl hin

/-- C5 (amended): in an ongoing round the grid exactly mirrors the cells
occupied by the snake's body after every completed frame that ends without a
wall collision, provided it mirrored the body before the frame and the
body's positions were duplicate-free (as they are in any settled
non-collided state).  At round start, however, the claim fails: the initial
segment's center cell is never marked, and the grid understates the body
until the first frame's draw. -/
theorem claim_C5 (cmd : Cmd) (rands : List (Nat × Nat)) (s t : GameState)
    (hmir : gridMirrors s) (hnd : (s.snake.body.map Node.pos).Nodup)
    (hne : s.snake.body ≠ [])
    (hEq : frameCore cmd rands s = some t)
    (hwc : t.wallCollision = false) : gridMirrors t := by
  cases cmd with
  | north =>
    exact frameAfterInput_mirrors _ _ rands s t
      (changeDirection_body s.snake .NORTH) hmir hnd hne hEq hwc
  | east =>
    exact frameAfterInput_mirrors _ _ rands s t
      (changeDirection_body s.snake .EAST) hmir hnd hne hEq hwc
  | south =>
    exact frameAfterInput_mirrors _ _ rands s t
      (changeDirection_body s.snake .SOUTH) hmir hnd hne hEq hwc
  | west =>
    exact frameAfterInput_mirrors _ _ rands s t
      (changeDirection_body s.snake .WEST) hmir hnd hne hEq hwc
  | quit => exact frameAfterInput_mirrors _ _ rands s t rfl hmir hnd hne hEq hwc
  | nop => exact frameAfterInput_mirrors _ _ rands s t rfl hmir hnd hne hEq hwc

/-- Counterexample to C5 as stated: immediately after round start the
snake's only segment occupies the field's center (2,2), but that grid cell
is false - no code path marks the initial segment's cell, so the grid does
not mirror the body at round start. -/
theorem claim_C5_cex :
    roundStart 4 4 .INCREMENTAL .NORTH [(0, 0)] = some gsRoundStart ∧
    (⟨2, 2⟩ : Point) ∈ gsRoundStart.snake.body.map Node.pos ∧
    gsRoundStart.grid ⟨2, 2⟩ = false := by
  exact ⟨rfl, by decide, rfl⟩

/-- Closed witness for C5: one concrete no-growth frame from a mirrored
state stays mirrored. -/
theorem claim_C5_witness :
    (gridMirrors gsOne ∧ (gsOne.snake.body.map Node.pos).Nodup ∧
      gsOne.snake.body ≠ [] ∧ frameCore Cmd.nop [] gsOne = some gsOnePost ∧
      gsOnePost.wallCollision = false) ∧
    gridMirrors gsOnePost := by
  have hmir : gridMirrors gsOne := by
    intro p
    simp [gsOne, gridMirrors]
  exact ⟨⟨hmir, by decide, by decide, rfl, rfl⟩,
    claim_C5 Cmd.nop [] gsOne gsOnePost hmir (by decide) (by decide) rfl rfl⟩
